import Mathlib

/-!
Verification of the DocuFix document-quality workflow tool.

Shallow embedding of:
* the gap classification engine (`frontend/src/components/TableEditor.js`):
  `hasGap`, `isFilled`, `handleCellChange`;
* the structure-reconciliation algorithm and render projection
  (`frontend/src/components/DocumentViewer.js`): `handleSave`'s
  structure-preserving merge and `restoreCursorPosition`'s matching cascade;
* the approval upsert and document lifecycle (backend `review_submission`,
  embedded from the code listing in `APPROVAL_FIX_DOCUMENTATION.md`).

JS strings are modelled as Lean `String`; JS `undefined`-vs-set fields are
modelled as `Option`; JS truthiness of a string is non-emptiness.
-/

namespace DocuFix

/-- Substring test on character lists, mirroring JS `String.prototype.includes`:
`needle` occurs somewhere inside the haystack. -/
def listContainsSub (needle : List Char) : List Char → Bool
  | [] => needle.isEmpty
  | c :: t => needle.isPrefixOf (c :: t) || listContainsSub needle t

/-- JS `s.includes(sub)`. -/
def strContains (s sub : String) : Bool :=
  listContainsSub sub.data s.data

/-- JS `s.trim()`: strip leading and trailing whitespace. -/
def jsTrim (s : String) : String :=
  ⟨((s.data.dropWhile Char.isWhitespace).reverse.dropWhile Char.isWhitespace).reverse⟩

/-- JS `s.toLowerCase()` (ASCII case folding as used by the classifier). -/
def jsToLower (s : String) : String :=
  ⟨s.data.map Char.toLower⟩

/-- JS truthiness/emptiness test for a string. -/
def strIsEmpty (s : String) : Bool :=
  s.data.isEmpty

/-- JS `s.length`. -/
def strLen (s : String) : Nat :=
  s.data.length

/-- JS `s.substring(0, n)`. -/
def strTake (s : String) (n : Nat) : String :=
  ⟨s.data.take n⟩

/-- JS `s.startsWith(p)` is `strIsPrefixOf p s`. -/
def strIsPrefixOf (p s : String) : Bool :=
  p.data.isPrefixOf s.data

/-- JS `text.trim().toLowerCase()` as applied by `TableEditor.js` before
classification. -/
def normText (s : String) : String :=
  jsToLower (jsTrim s)

/-- `TableEditor.js` lines 18-21 / 65-68: pending detection over the
normalized text. -/
def isPendingText (t : String) : Bool :=
  strContains t "(pending)" || strContains t "pending)" ||
  strContains t "(pending" || t == "pending"

/-- `TableEditor.js` lines 24-29 / 70-71: null-token detection. -/
def isNullText (t : String) : Bool :=
  t == "null" || t == "none" || t == "nil" ||
  t == "n/a" || t == "na" || t == "n.a."

/-- `TableEditor.js` lines 32-34 / 72-74: the missing-token list. -/
def missingValues : List String :=
  ["missing", "not provided", "not available", "unavailable",
   "tbd", "to be determined", "t.b.d.", "tba", "to be announced",
   "unknown", "unk", ""]

/-- `TableEditor.js` line 35 / 76: `!text || missingValues.includes(text)`. -/
def isMissingText (t : String) : Bool :=
  strIsEmpty t || missingValues.contains t

/-- `TableEditor.js` line 78: the recomputed `has_gap` flag for an edited
text (`is_pending || is_null || is_missing || is_empty`). -/
def textHasGap (s : String) : Bool :=
  let t := normText s
  isPendingText t || isNullText t || isMissingText t || strIsEmpty t

/-- A table cell as handled by `TableEditor.js`: text plus backend gap flags,
the write-once `original_has_gap` / `was_gap` capture (JS `undefined` is
`none`) and the derived `is_filled` flag. -/
structure Cell where
  id : String := ""
  text : String := ""
  has_gap : Bool := false
  is_pending : Bool := false
  is_null : Bool := false
  is_missing : Bool := false
  is_empty : Bool := false
  original_has_gap : Option Bool := none
  was_gap : Option Bool := none
  is_filled : Bool := false
deriving Repr, DecidableEq

/-- `TableEditor.js` `hasGap` (lines 8-38): stored backend flags
short-circuit, otherwise the normalized text is classified. -/
def hasGapCell (c : Cell) : Bool :=
  let t := normText c.text
  if c.has_gap || c.is_pending || c.is_missing || c.is_null || c.is_empty then
    true
  else
    isPendingText t || isNullText t || isMissingText t

/-- `TableEditor.js` `isFilled` (lines 41-47): previously a gap
(`original_has_gap || was_gap`) and currently valid non-empty content. -/
def isFilledCell (c : Cell) : Bool :=
  (c.original_has_gap.getD false || c.was_gap.getD false) &&
  (!strIsEmpty c.text && !strIsEmpty (jsTrim c.text) && !hasGapCell c)

/-- `TableEditor.js` `handleCellChange` (lines 49-88) restricted to the cell
it mutates: capture `original_has_gap` / `was_gap` on first edit, overwrite
the text, recompute the gap flags from the new value, and derive
`is_filled`. -/
def handleCellChange (c : Cell) (newValue : String) : Cell :=
  let c1 :=
    if c.original_has_gap.isNone then
      { c with original_has_gap := some (hasGapCell c),
               was_gap := some (hasGapCell c) }
    else c
  let t := normText newValue
  let ip := isPendingText t
  let inl := isNullText t
  let im := isMissingText t
  let ie := strIsEmpty t
  { c1 with
    text := newValue
    is_pending := ip
    is_null := inl
    is_missing := im
    is_empty := ie
    has_gap := ip || inl || im || ie
    is_filled := c1.original_has_gap.getD false && !(ip || inl || im || ie) &&
      decide (0 < strLen (jsTrim newValue)) }

/-- A sequence of edits to one cell within an edit session. -/
def applyEdits (c : Cell) (edits : List String) : Cell :=
  edits.foldl handleCellChange c

/-- A table row: `{ id, cells }`. -/
structure Row where
  id : String := ""
  cells : List Cell := []
deriving Repr, DecidableEq

/-- A table of the document structure: `{ id, name, column_headers, rows }`
(`column_headers` may be absent, hence `Option`). -/
structure Table where
  id : String := ""
  name : String := ""
  column_headers : Option (List String) := none
  rows : List Row := []
deriving Repr, DecidableEq

/-- A paragraph of the document structure. -/
structure Paragraph where
  text : String := ""
deriving Repr, DecidableEq

/-- The authoritative structure model: paragraphs plus tables. -/
structure DocStructure where
  paragraphs : List Paragraph := []
  tables : List Table := []
deriving Repr, DecidableEq

/-- The rendered view as read back by `handleSave`
(`DocumentViewer.js` lines 774-880): per table the rows of cell
`textContent` strings, plus the paragraph `textContent` strings. Highlight
`<span>` markers wrap text without changing `textContent`, so a node's
string here is exactly its marker-stripped text. -/
structure HtmlView where
  tables : List (List (List String)) := []
  paragraphs : List String := []
deriving Repr, DecidableEq

/-- `DocumentViewer.js` lines 799-831: overwrite one cell's text with the
trimmed rendered text, only when it differs. -/
def updateCell (c : Cell) (h : String) : Cell :=
  let newText := jsTrim h
  if c.text = newText then c else { c with text := newText }

/-- `htmlCells.forEach` with the `originalRow.cells[cellIdx]` guard: rendered
cells beyond the stored row are ignored, stored cells beyond the rendered
row are untouched. -/
def updateCells : List Cell → List String → List Cell
  | cs, [] => cs
  | [], _ => []
  | c :: cs, h :: hs => updateCell c h :: updateCells cs hs

/-- One row reconciled against its rendered counterpart. -/
def updateRow (r : Row) (h : List String) : Row :=
  { r with cells := updateCells r.cells h }

/-- `htmlRows.forEach` with the `originalTable.rows[rowIdx]` guard. -/
def updateRows : List Row → List (List String) → List Row
  | rs, [] => rs
  | [], _ => []
  | r :: rs, h :: hs => updateRow r h :: updateRows rs hs

/-- `DocumentViewer.js` lines 783-841: reconcile one table, explicitly
preserving `name`, `id` and `column_headers` from the original structure. -/
def reconcileTable (t : Table) (html : List (List String)) : Table :=
  let preservedName := t.name
  let preservedId := t.id
  let preservedHeaders := t.column_headers
  { t with rows := updateRows t.rows html,
           name := preservedName,
           id := preservedId,
           column_headers := preservedHeaders }

/-- `htmlTables.forEach` with the `documentStructure.tables[tableIdx]` guard. -/
def reconcileTables : List Table → List (List (List String)) → List Table
  | ts, [] => ts
  | [], _ => []
  | t :: ts, h :: hs => reconcileTable t h :: reconcileTables ts hs

/-- `DocumentViewer.js` lines 846-879: overwrite one paragraph's text with
the trimmed rendered text, only when it differs. -/
def updateParagraph (p : Paragraph) (h : String) : Paragraph :=
  let newText := jsTrim h
  if p.text = newText then p else { p with text := newText }

/-- `htmlParagraphs.forEach` with the `documentStructure.paragraphs[paraIdx]`
guard. -/
def updateParagraphs : List Paragraph → List String → List Paragraph
  | ps, [] => ps
  | [], _ => []
  | p :: ps, h :: hs => updateParagraph p h :: updateParagraphs ps hs

/-- The EditReconciler: merge the rendered view's text back into the prior
structure (`handleSave`'s originalStructure branch). -/
def reconcileStructure (d : DocStructure) (view : HtmlView) : DocStructure :=
  { paragraphs := updateParagraphs d.paragraphs view.paragraphs,
    tables := reconcileTables d.tables view.tables }

/-- The RenderProjector restricted to text content: each rendered node's
`textContent` equals the stored text, because the highlight processing in
`loadDocument` (lines 97-183) only wraps substrings in
`<span class="highlight-pending">` tags, which leave `textContent`
unchanged. -/
def projectRow (r : Row) : List String :=
  r.cells.map (fun c => c.text)

/-- Project one table into its rendered cell texts. -/
def projectTable (t : Table) : List (List String) :=
  t.rows.map projectRow

/-- Project the whole structure into the rendered view read by `handleSave`. -/
def projectStructure (d : DocStructure) : HtmlView :=
  { tables := d.tables.map projectTable,
    paragraphs := d.paragraphs.map (fun p => p.text) }

/-- A model is trim-stable when every stored text equals its own trim. -/
def trimStable (d : DocStructure) : Prop :=
  (∀ p ∈ d.paragraphs, jsTrim p.text = p.text) ∧
  (∀ t ∈ d.tables, ∀ r ∈ t.rows, ∀ c ∈ r.cells, jsTrim c.text = c.text)

/-- The visual state `TableEditor.js` computes for one rendered cell
(lines 163-190): gap and filled markers. -/
structure RenderedCell where
  hasGapFlag : Bool
  isFilledFlag : Bool
deriving Repr, DecidableEq

/-- One rendered row of the table editor: the header-row style flag and the
per-cell visual state. -/
structure RenderedRow where
  isHeaderRow : Bool
  cells : List RenderedCell
deriving Repr, DecidableEq

/-- `TableEditor.js` lines 158-193: `isHeaderRow` is `rowIdx === 0`, and
`cellHasGap` / `cellIsFilled` are computed for every cell of every row. -/
def renderRow (rowIdx : Nat) (r : Row) : RenderedRow :=
  { isHeaderRow := rowIdx == 0,
    cells := r.cells.map (fun c =>
      { hasGapFlag := hasGapCell c, isFilledFlag := isFilledCell c }) }

/-- The full table-editor rendering of a table's rows. -/
def renderTableRows (t : Table) : List RenderedRow :=
  t.rows.enum.map (fun p => renderRow p.1 p.2)

/-- A node of the fresh rendered view as queried by
`restoreCursorPosition` (`td`, `th` or `p` elements in document order). -/
structure VNode where
  isPara : Bool := false
  tableIdx : Nat := 0
  rowIdx : Nat := 0
  cellIdx : Nat := 0
  cellId : Option String := none
  dataEditing : Bool := false
  text : String := ""
deriving Repr, DecidableEq

/-- The saved selection record built by `saveCursorPosition`
(`DocumentViewer.js` lines 404-413) and enriched with `editedText` by
`handleSave` (lines 912-936). -/
structure RenderAnchor where
  cellId : Option String := none
  textContent : String := ""
  cellPosition : Option (Nat × Nat × Nat) := none
  paragraphIndex : Option Nat := none
  editedText : Option String := none
  offset : Nat := 0
deriving Repr, DecidableEq

/-- `DocumentViewer.js` lines 487-491: the edited-text comparison used while
scanning `td, th, p` nodes. -/
def editedTextMatch (et : String) (n : VNode) : Bool :=
  let elText := jsTrim n.text
  let set := jsTrim et
  !strIsEmpty elText &&
    (elText == set || strIsPrefixOf set elText || strIsPrefixOf elText set ||
     strTake elText (min 50 (strLen set)) == strTake set (min 50 (strLen elText)))

/-- `DocumentViewer.js` lines 503-507: the pre-edit text comparison. -/
def textContentMatch (saved : String) (n : VNode) : Bool :=
  let elText := jsTrim n.text
  let st := jsTrim saved
  !strIsEmpty elText &&
    (strIsPrefixOf st elText || strIsPrefixOf elText st ||
     strTake elText 50 == strTake st 50)

/-- The target-element search of `restoreCursorPosition`
(`DocumentViewer.js` lines 442-520), embedded as a pure function: the
sequential fallbacks are (1) `data-cell-id` lookup, (2) the node marked
`data-editing`, (3) positional lookup by saved table/row/cell index,
(4) edited-text match, (5) pre-edit text match, (6) paragraph index. -/
def findTarget (a : RenderAnchor) (v : List VNode) : Option VNode :=
  match (match a.cellId with
         | some cid =>
           if strIsEmpty cid then none
           else v.find? (fun (n : VNode) => n.cellId == some cid)
         | none => none) with
  | some n => some n
  | none =>
  match v.find? (fun (n : VNode) => n.dataEditing) with
  | some n => some n
  | none =>
  match (match a.cellPosition with
         | some p =>
           v.find? (fun (n : VNode) => !n.isPara && n.tableIdx == p.1 &&
                             n.rowIdx == p.2.1 && n.cellIdx == p.2.2)
         | none => none) with
  | some n => some n
  | none =>
  match (match a.editedText with
         | some et =>
           if strIsEmpty et then none else v.find? (editedTextMatch et)
         | none => none) with
  | some n => some n
  | none =>
  match (if strIsEmpty a.textContent then none
         else v.find? (textContentMatch a.textContent)) with
  | some n => some n
  | none =>
  match a.paragraphIndex with
  | some i => (v.filter (fun (n : VNode) => n.isPara)).get? i
  | none => none

/-- Stage 1 of the cascade: lookup by the saved `data-cell-id`. -/
def stageCellId (a : RenderAnchor) (v : List VNode) : Option VNode :=
  match a.cellId with
  | some cid =>
    if strIsEmpty cid then none else v.find? (fun (n : VNode) => n.cellId == some cid)
  | none => none

/-- Stage 2: the node still carrying the `data-editing` marker. -/
def stageEditing (v : List VNode) : Option VNode :=
  v.find? (fun (n : VNode) => n.dataEditing)

/-- Stage 3: positional lookup by the saved table/row/cell index. -/
def stagePosition (a : RenderAnchor) (v : List VNode) : Option VNode :=
  match a.cellPosition with
  | some p =>
    v.find? (fun (n : VNode) => !n.isPara && n.tableIdx == p.1 &&
                      n.rowIdx == p.2.1 && n.cellIdx == p.2.2)
  | none => none

/-- Stage 4: scan for an edited-text match. -/
def stageEditedText (a : RenderAnchor) (v : List VNode) : Option VNode :=
  match a.editedText with
  | some et => if strIsEmpty et then none else v.find? (editedTextMatch et)
  | none => none

/-- Stage 5: scan for a pre-edit text match. -/
def stageTextContent (a : RenderAnchor) (v : List VNode) : Option VNode :=
  if strIsEmpty a.textContent then none
  else v.find? (textContentMatch a.textContent)

/-- Stage 6: fall back to the saved paragraph index. -/
def stageParagraphIndex (a : RenderAnchor) (v : List VNode) : Option VNode :=
  match a.paragraphIndex with
  | some i => (v.filter (fun (n : VNode) => n.isPara)).get? i
  | none => none

/-- First-success-wins cascade over the six stages, in the order the code
attempts them. -/
def locateCascade (a : RenderAnchor) (v : List VNode) : Option VNode :=
  [stageCellId a v, stageEditing v, stagePosition a v, stageEditedText a v,
   stageTextContent a v, stageParagraphIndex a v].foldl
    (fun acc s => acc.orElse (fun _ => s)) none

/-- The matching order as the specification words it, for comparison with
`findTarget`: (1) exact identity by cellId or paragraph index, (2) exact
match on the post-edit fingerprint, (3) prefix/suffix match on the pre-edit
fingerprint (first 50 chars either direction), (4) positional fallback. -/
def claimedLocate (a : RenderAnchor) (v : List VNode) : Option VNode :=
  let s1 : Option VNode :=
    (match a.cellId with
     | some cid =>
       if strIsEmpty cid then none else v.find? (fun (n : VNode) => n.cellId == some cid)
     | none => none).orElse (fun _ =>
      match a.paragraphIndex with
      | some i => (v.filter (fun (n : VNode) => n.isPara)).get? i
      | none => none)
  let s2 : Option VNode :=
    match a.editedText with
    | some et =>
      if strIsEmpty et then none
      else v.find? (fun (n : VNode) => !strIsEmpty (jsTrim n.text) &&
                             jsTrim n.text == jsTrim et)
    | none => none
  let s3 : Option VNode :=
    if strIsEmpty a.textContent then none
    else v.find? (textContentMatch a.textContent)
  let s4 : Option VNode :=
    (stagePosition a v).orElse (fun _ => stageParagraphIndex a v)
  ((s1.orElse (fun _ => s2)).orElse (fun _ => s3)).orElse (fun _ => s4)

/-- An `ApprovedDocument` row (`backend/models.py` as listed in
`APPROVAL_FIX_DOCUMENTATION.md`): unique per `document_id`. -/
structure ApprovedDocument where
  document_id : Nat
  section_id : String := ""
  version : Nat := 1
  xml_file_path : String := ""
  json_file_path : String := ""
  approved_by : String := ""
  approval_notes : String := ""
deriving Repr, DecidableEq

/-- The per-approval inputs of `review_submission`: the generated
`section_id`, artifact paths, and the review payload. -/
structure ReviewArgs where
  section_id : String := ""
  xml_file_path : String := ""
  json_file_path : String := ""
  reviewed_by : String := ""
  review_notes : String := ""
deriving Repr, DecidableEq

/-- `review_submission` step 6, update branch: mutate the existing row in
place (`version += 1`, new paths, new reviewer data). -/
def applyApprovalUpdate (args : ReviewArgs) (r : ApprovedDocument) : ApprovedDocument :=
  { r with section_id := args.section_id,
           version := r.version + 1,
           xml_file_path := args.xml_file_path,
           json_file_path := args.json_file_path,
           approved_by := args.reviewed_by,
           approval_notes := args.review_notes }

/-- `review_submission` step 6, create branch: a fresh row with `version = 1`. -/
def newApprovedDocument (docId : Nat) (args : ReviewArgs) : ApprovedDocument :=
  { document_id := docId,
    section_id := args.section_id,
    version := 1,
    xml_file_path := args.xml_file_path,
    json_file_path := args.json_file_path,
    approved_by := args.reviewed_by,
    approval_notes := args.review_notes }

/-- Update the first row matching `document_id` (SQLAlchemy
`query.filter(...).first()` followed by in-place mutation). -/
def updateFirstApproved (docId : Nat) (args : ReviewArgs) :
    List ApprovedDocument → List ApprovedDocument
  | [] => []
  | r :: rs =>
    if r.document_id == docId then applyApprovalUpdate args r :: rs
    else r :: updateFirstApproved docId args rs

/-- The update-or-create pattern of `review_submission` steps 3 and 6 on the
`ApprovedDocument` table. -/
def upsertApproved (docId : Nat) (args : ReviewArgs)
    (db : List ApprovedDocument) : List ApprovedDocument :=
  if (db.find? (fun r => r.document_id == docId)).isSome then
    updateFirstApproved docId args db
  else
    db ++ [newApprovedDocument docId args]

/-- A sequence of approvals of the same document. -/
def approveAll (docId : Nat) (argsL : List ReviewArgs)
    (db : List ApprovedDocument) : List ApprovedDocument :=
  argsL.foldl (fun d a => upsertApproved docId a d) db

/-- Points at which an approval can raise, per the `try/except` of
`review_submission`: while writing the new XML artifact, while writing the
new JSON artifact, or at `db.commit()`. Old-artifact deletion failures are
caught locally (logged, not fatal) and so are not failure points. -/
inductive FailPoint where
  | noFail
  | failWriteXml
  | failWriteJson
  | failCommit
deriving Repr, DecidableEq

/-- Backend state visible to an approval: the artifact files on disk and the
`ApprovedDocument` table. -/
structure BackendState where
  files : List String := []
  approved : List ApprovedDocument := []
deriving Repr, DecidableEq

/-- `if os.path.exists(p): os.remove(p)`. -/
def removeFileIfExists (files : List String) (p : String) : List String :=
  if files.contains p then files.erase p else files

/-- The approval path of `review_submission` with a failure-injection point:
old artifacts are deleted (step 4) and new artifacts written (step 5) as
direct file-system effects; table changes take effect only at `db.commit()`
(step 7), and the `except` handler calls `db.rollback()`, so on any failure
the table reverts to its pre-approval content while file-system effects
already performed persist. Returns the resulting state and a success flag. -/
def reviewApprovalAttempt (docId : Nat) (args : ReviewArgs) (fp : FailPoint)
    (st : BackendState) : BackendState × Bool :=
  let existing := st.approved.find? (fun r => r.document_id == docId)
  let files1 :=
    match existing with
    | some r =>
      removeFileIfExists (removeFileIfExists st.files r.xml_file_path)
        r.json_file_path
    | none => st.files
  if fp == FailPoint.failWriteXml then
    ({ files := files1, approved := st.approved }, false)
  else
    let files2 := files1 ++ [args.xml_file_path]
    if fp == FailPoint.failWriteJson then
      ({ files := files2, approved := st.approved }, false)
    else
      let files3 := files2 ++ [args.json_file_path]
      if fp == FailPoint.failCommit then
        ({ files := files3, approved := st.approved }, false)
      else
        ({ files := files3, approved := upsertApproved docId args st.approved }, true)

/-- Document lifecycle statuses. -/
inductive Status where
  | draft
  | locked
  | submitted
  | under_review
  | approved
  | rejected
deriving Repr, DecidableEq

/-- A document's lifecycle state: its status string and lock bit. -/
structure LifeState where
  status : Status
  is_locked : Bool
deriving Repr, DecidableEq

/-- `review_submission`, approval branch (`APPROVAL_FIX_DOCUMENTATION.md`
lines 254-256): the document becomes approved and locked. -/
def reviewApproveDoc (_s : LifeState) : LifeState :=
  { status := Status.approved, is_locked := true }

/-- `review_submission`, rejection branch (lines 351-353): the document
returns to draft, unlocked. -/
def reviewRejectDoc (_s : LifeState) : LifeState :=
  { status := Status.draft, is_locked := false }

/-- Modelled from the spec: the upload, lock, unlock, force-unlock, reset,
submit and start-review endpoints live in `backend/main.py`, which is not in
the source tree; their transitions are taken from spec §4.6 together with
UNLOCK_FIX.md's status table (upload locks; normal unlock is allowed from
draft/locked/rejected and yields draft+unlocked; force unlock and reset
yield draft+unlocked from any state; lock and submit lock). The two review
transitions are the embedded `reviewApproveDoc` / `reviewRejectDoc` from the
`review_submission` code. -/
inductive Reachable : LifeState → Prop where
  | uploaded : Reachable ⟨Status.locked, true⟩
  | unlock {s : LifeState} : Reachable s →
      (s.status = Status.draft ∨ s.status = Status.locked ∨
       s.status = Status.rejected) →
      Reachable ⟨Status.draft, false⟩
  | forceUnlock {s : LifeState} : Reachable s → Reachable ⟨Status.draft, false⟩
  | reset {s : LifeState} : Reachable s → Reachable ⟨Status.draft, false⟩
  | lock {s : LifeState} : Reachable s → s.status = Status.draft →
      Reachable ⟨Status.locked, true⟩
  | submit {s : LifeState} : Reachable s →
      (s.status = Status.draft ∨ s.status = Status.locked) →
      Reachable ⟨Status.submitted, true⟩
  | startReview {s : LifeState} : Reachable s → s.status = Status.submitted →
      Reachable ⟨Status.under_review, true⟩
  | approve {s : LifeState} : Reachable s →
      (s.status = Status.submitted ∨ s.status = Status.under_review) →
      Reachable (reviewApproveDoc s)
  | reject {s : LifeState} : Reachable s →
      (s.status = Status.submitted ∨ s.status = Status.under_review) →
      Reachable (reviewRejectDoc s)

/-! Concrete instances used by witnesses and counterexamples. -/

/-- A cell that currently reads as a pending gap. -/
def gapCellC7 : Cell := { text := "(Pending)" }

/-- A cell that currently reads as a pending gap (exact token). -/
def gapCellC8 : Cell := { text := "pending" }

/-- A header row whose only cell reads "pending". -/
def hdrRow0 : Row := { id := "r0", cells := [{ id := "c00", text := "pending" }] }

/-- A body row. -/
def hdrRow1 : Row := { id := "r1", cells := [{ id := "c10", text := "x" }] }

/-- A two-row table whose header row contains gap-looking text. -/
def hdrTable : Table := { id := "table_0", rows := [hdrRow0, hdrRow1] }

/-- A one-paragraph model whose text carries surrounding whitespace. -/
def roundtripDoc : DocStructure := { paragraphs := [{ text := " a " }] }

/-- A small trim-stable model. -/
def wDoc : DocStructure :=
  { paragraphs := [{ text := "Intro" }],
    tables := [{ id := "t0", name := "T", column_headers := some ["H"],
                 rows := [{ id := "r0", cells := [{ id := "c", text := "Buffer" }] }] }] }

/-- An anchor with a valid saved cell position and an edited-text fingerprint
that matches a different cell. -/
def locAnchor : RenderAnchor :=
  { textContent := "zzz", cellPosition := some (0, 0, 0),
    editedText := some "hello" }

/-- The cell at position (0,0,0) of the fresh view, with unrelated text. -/
def locNodeA : VNode := { text := "other stuff" }

/-- The cell at position (0,0,1), whose text equals the edited fingerprint. -/
def locNodeB : VNode := { cellIdx := 1, text := "hello" }

/-- The fresh view holding both cells. -/
def locView : List VNode := [locNodeA, locNodeB]

/-- An existing approval row for document 3. -/
def cexApproved : ApprovedDocument :=
  { document_id := 3, section_id := "S1", version := 1,
    xml_file_path := "old.xml", json_file_path := "old.json",
    approved_by := "rev" }

/-- Backend state with document 3 already approved and its artifacts on disk. -/
def cexBackendState : BackendState :=
  { files := ["old.xml", "old.json"], approved := [cexApproved] }

/-- The inputs of a re-approval of document 3. -/
def cexReviewArgs : ReviewArgs :=
  { section_id := "S2", xml_file_path := "new.xml",
    json_file_path := "new.json", reviewed_by := "rev" }

/-- Inputs of a first approval of document 3. -/
def wArgs1 : ReviewArgs :=
  { section_id := "DOC-3-A", xml_file_path := "a.xml",
    json_file_path := "a.json", reviewed_by := "Reviewer" }

/-- Inputs of a second approval of document 3. -/
def wArgs2 : ReviewArgs :=
  { section_id := "DOC-3-B", xml_file_path := "b.xml",
    json_file_path := "b.json", reviewed_by := "Reviewer" }

/-! Helper lemmas. -/

/-- Folding one more edit. -/
theorem applyEdits_cons (c : Cell) (e : String) (es : List String) :
    applyEdits c (e :: es) = applyEdits (handleCellChange c e) es := rfl

/-- Splitting off the last edit. -/
theorem applyEdits_append_single (c : Cell) (es : List String) (e : String) :
    applyEdits c (es ++ [e]) = handleCellChange (applyEdits c es) e := by
  simp [applyEdits, List.foldl_append]

/-- One edit captures `original_has_gap` exactly when it was unset. -/
theorem handleCellChange_orig (c : Cell) (e : String) :
    (handleCellChange c e).original_has_gap =
      (if c.original_has_gap.isNone then some (hasGapCell c)
       else c.original_has_gap) := by
  by_cases h : c.original_has_gap.isNone <;> simp [handleCellChange, h]

/-- One edit captures `was_gap` exactly when `original_has_gap` was unset. -/
theorem handleCellChange_wasGap (c : Cell) (e : String) :
    (handleCellChange c e).was_gap =
      (if c.original_has_gap.isNone then some (hasGapCell c)
       else c.was_gap) := by
  by_cases h : c.original_has_gap.isNone <;> simp [handleCellChange, h]

/-- Once `original_has_gap` is set, any edit sequence preserves it together
with `was_gap`. -/
theorem applyEdits_orig_stable (c : Cell) (b : Bool) (es : List String)
    (h : c.original_has_gap = some b) :
    (applyEdits c es).original_has_gap = some b ∧
    (applyEdits c es).was_gap = c.was_gap := by
  induction es generalizing c with
  | nil => exact ⟨h, rfl⟩
  | cons e es ih =>
    have h1 : (handleCellChange c e).original_has_gap = some b := by
      rw [handleCellChange_orig]; simp [h]
    have h2 : (handleCellChange c e).was_gap = c.was_gap := by
      rw [handleCellChange_wasGap]; simp [h]
    obtain ⟨ha, hb⟩ := ih (handleCellChange c e) h1
    exact ⟨by rw [applyEdits_cons]; exact ha,
           by rw [applyEdits_cons, hb, h2]⟩

/-- For a fresh cell, the capture after any edit sequence is determined by
the pre-first-edit state. -/
theorem applyEdits_orig_of_none (c : Cell) (es : List String)
    (hc : c.original_has_gap = none) :
    (applyEdits c es).original_has_gap =
      (if es.isEmpty then none else some (hasGapCell c)) := by
  cases es with
  | nil => simpa [applyEdits] using hc
  | cons e es =>
    rw [applyEdits_cons]
    have h1 : (handleCellChange c e).original_has_gap = some (hasGapCell c) := by
      rw [handleCellChange_orig]; simp [hc]
    simpa using (applyEdits_orig_stable _ _ es h1).1

/-- The `is_filled` flag written by one edit, as a function of the captured
gap state and the new value. -/
theorem handleCellChange_is_filled (c : Cell) (e : String) :
    (handleCellChange c e).is_filled =
      (c.original_has_gap.getD (hasGapCell c) && !textHasGap e &&
        decide (0 < strLen (jsTrim e))) := by
  rcases h : c.original_has_gap with _ | b <;>
    simp [handleCellChange, h, textHasGap]

/-- C7: after an edit session on a cell whose `original_has_gap` was unset,
the cell ends marked `is_filled` if and only if it had a gap when first
edited (the captured `wasGap`), its current classification has no gap, and
its current trimmed text is non-empty; in particular a cell with the same
final text that never had a gap is not "filled". -/
theorem is_filled_characterization (c : Cell) (es : List String) (e : String)
    (hc : c.original_has_gap = none) :
    (applyEdits c (es ++ [e])).is_filled =
      (hasGapCell c && !textHasGap e && decide (0 < strLen (jsTrim e))) := by
  rw [applyEdits_append_single, handleCellChange_is_filled]
  have h := applyEdits_orig_of_none c es hc
  cases es with
  | nil => simp [applyEdits] at h ⊢; rw [h]; simp [hc]
  | cons e0 es0 => simp at h; rw [h]; simp

theorem is_filled_characterization_witness :
    (applyEdits gapCellC7 ([] ++ ["CAT-123"])).is_filled =
      (hasGapCell gapCellC7 && !textHasGap "CAT-123" &&
        decide (0 < strLen (jsTrim "CAT-123"))) :=
  is_filled_characterization gapCellC7 [] "CAT-123" rfl

/-- C8: `was_gap` (and `original_has_gap`) is captured exactly once, at the
first edit of the session, from the cell's gap state at that moment, and no
later edit overwrites it — in particular once `was_gap` is `true` it stays
`true` for any continuation of the session, even one that clears every gap
flag. -/
theorem wasGap_write_once (c : Cell) (e : String) (es : List String)
    (hc : c.original_has_gap = none) :
    (applyEdits c (e :: es)).original_has_gap = some (hasGapCell c) ∧
    (applyEdits c (e :: es)).was_gap = some (hasGapCell c) := by
  have h1 : (handleCellChange c e).original_has_gap = some (hasGapCell c) := by
    rw [handleCellChange_orig]; simp [hc]
  have h2 : (handleCellChange c e).was_gap = some (hasGapCell c) := by
    rw [handleCellChange_wasGap]; simp [hc]
  obtain ⟨ha, hb⟩ := applyEdits_orig_stable _ _ es h1
  exact ⟨by rw [applyEdits_cons]; exact ha,
         by rw [applyEdits_cons, hb, h2]⟩

theorem wasGap_write_once_witness :
    (applyEdits gapCellC8 ("CAT-1" :: ["ok"])).original_has_gap = some true ∧
    (applyEdits gapCellC8 ("CAT-1" :: ["ok"])).was_gap = some true := by
  have h := wasGap_write_once gapCellC8 "CAT-1" ["ok"] rfl
  have hg : hasGapCell gapCellC8 = true := by decide
  rw [hg] at h
  exact h

/-- C10: the classifier sets `is_pending` by substring containment for the
parenthesized forms: any edited value whose trimmed lower-cased text
contains "(pending)", "pending)" or "(pending" anywhere (or equals
"pending") is flagged pending. -/
theorem pending_substring (c : Cell) (s : String)
    (h : strContains (normText s) "(pending)" = true ∨
         strContains (normText s) "pending)" = true ∨
         strContains (normText s) "(pending" = true ∨
         normText s = "pending") :
    (handleCellChange c s).is_pending = true := by
  have hp : isPendingText (normText s) = true := by
    unfold isPendingText
    rcases h with h | h | h | h <;> simp [h]
  by_cases hc : c.original_has_gap.isNone <;>
    simp [handleCellChange, hc, hp]

theorem pending_substring_witness :
    (handleCellChange ({ } : Cell) "delivery (Pending confirmation)").is_pending = true :=
  pending_substring { } "delivery (Pending confirmation)"
    (Or.inr (Or.inr (Or.inl (by decide))))

/-- Reconciling a table never changes its `id`, `name` or `column_headers`. -/
theorem reconcileTable_meta (t : Table) (h : List (List String)) :
    (reconcileTable t h).id = t.id ∧ (reconcileTable t h).name = t.name ∧
    (reconcileTable t h).column_headers = t.column_headers :=
  ⟨rfl, rfl, rfl⟩

/-- Reconciling a table list preserves every table's metadata triple. -/
theorem reconcileTables_meta :
    ∀ (ts : List Table) (hs : List (List (List String))),
      (reconcileTables ts hs).map (fun t => (t.id, t.name, t.column_headers)) =
        ts.map (fun t => (t.id, t.name, t.column_headers))
  | ts, [] => by cases ts <;> rfl
  | [], _ :: _ => rfl
  | t :: ts, h :: hs => by
    simp [reconcileTables, reconcileTables_meta ts hs, reconcileTable]

/-- C3: for every document structure and every sequence of reconciliations,
every table's `column_headers`, `id` and `name` after the sequence equal
their values before it, regardless of the rendered text (including the
rendered header row). -/
theorem header_invariant (d : DocStructure) (views : List HtmlView) :
    (views.foldl reconcileStructure d).tables.map
        (fun t => (t.id, t.name, t.column_headers)) =
      d.tables.map (fun t => (t.id, t.name, t.column_headers)) := by
  induction views generalizing d with
  | nil => rfl
  | cons v vs ih =>
    rw [List.foldl_cons, ih]
    exact reconcileTables_meta d.tables v.tables

/-- C6 counterexample: row 0 is not excluded — the table editor flags a
row-0 cell reading "pending" as a gap, and reconciliation overwrites the
row-0 cell's stored text with the edited rendered header text. -/
theorem row0_not_excluded :
    ((renderTableRows hdrTable).head?.map
        (fun rr => rr.cells.map (fun c => c.hasGapFlag)) = some [true]) ∧
    ((reconcileTable hdrTable [["Edited Header"], ["y"]]).rows.head?.map
        (fun r => r.cells.map (fun c => c.text)) = some ["Edited Header"]) := by
  constructor <;> decide

/-- C6 amended: row 0 only receives the header-row visual style; gap
classification applies to row-0 cells exactly as to any cell, and
reconciliation applies the same text-overwrite rule to row 0 as to every
other row (header protection exists only at table level, via the preserved
`column_headers`/`id`/`name`). -/
theorem row0_uniform (t : Table) (r0 : Row) (rest : List Row)
    (h0 : List String) (hrest : List (List String))
    (ht : t.rows = r0 :: rest) :
    (renderTableRows t).head? = some (renderRow 0 r0) ∧
    (renderRow 0 r0).cells = r0.cells.map (fun c =>
      { hasGapFlag := hasGapCell c, isFilledFlag := isFilledCell c }) ∧
    (reconcileTable t (h0 :: hrest)).rows.head? = some (updateRow r0 h0) := by
  refine ⟨?_, rfl, ?_⟩
  · rw [renderTableRows, ht]; rfl
  · rw [reconcileTable]; simp [ht, updateRows]

theorem row0_uniform_witness :
    (renderTableRows hdrTable).head? = some (renderRow 0 hdrRow0) ∧
    (renderRow 0 hdrRow0).cells = hdrRow0.cells.map (fun c =>
      { hasGapFlag := hasGapCell c, isFilledFlag := isFilledCell c }) ∧
    (reconcileTable hdrTable [["Edited Header"], ["y"]]).rows.head? =
      some (updateRow hdrRow0 ["Edited Header"]) :=
  row0_uniform hdrTable hdrRow0 [hdrRow1] ["Edited Header"] [["y"]] rfl

/-- Reconciling a cell list against its own projected texts is the identity
when every text is trim-stable. -/
theorem updateCells_self :
    ∀ (cs : List Cell), (∀ c ∈ cs, jsTrim c.text = c.text) →
      updateCells cs (cs.map (fun c => c.text)) = cs
  | [], _ => rfl
  | c :: cs, h => by
    have hc := h c (List.mem_cons_self c cs)
    have ih := updateCells_self cs (fun x hx => h x (List.mem_cons_of_mem c hx))
    simp [updateCells, updateCell, hc, ih]

/-- Reconciling a row list against its own projection is the identity when
every cell text is trim-stable. -/
theorem updateRows_self :
    ∀ (rs : List Row), (∀ r ∈ rs, ∀ c ∈ r.cells, jsTrim c.text = c.text) →
      updateRows rs (rs.map projectRow) = rs
  | [], _ => rfl
  | r :: rs, h => by
    have hr := h r (List.mem_cons_self r rs)
    have ih := updateRows_self rs (fun x hx => h x (List.mem_cons_of_mem r hx))
    have : updateRow r (projectRow r) = r := by
      rw [updateRow, projectRow, updateCells_self r.cells hr]
    simp [updateRows, this, ih]

/-- Reconciling a table list against its own projection is the identity when
every cell text is trim-stable. -/
theorem reconcileTables_self :
    ∀ (ts : List Table),
      (∀ t ∈ ts, ∀ r ∈ t.rows, ∀ c ∈ r.cells, jsTrim c.text = c.text) →
      reconcileTables ts (ts.map projectTable) = ts
  | [], _ => rfl
  | t :: ts, h => by
    have ht := h t (List.mem_cons_self t ts)
    have ih := reconcileTables_self ts (fun x hx => h x (List.mem_cons_of_mem t hx))
    have : reconcileTable t (projectTable t) = t := by
      rw [reconcileTable, projectTable, updateRows_self t.rows ht]
    simp [reconcileTables, this, ih]

/-- Reconciling paragraphs against their own projection is the identity when
every paragraph text is trim-stable. -/
theorem updateParagraphs_self :
    ∀ (ps : List Paragraph), (∀ p ∈ ps, jsTrim p.text = p.text) →
      updateParagraphs ps (ps.map (fun p => p.text)) = ps
  | [], _ => rfl
  | p :: ps, h => by
    have hp := h p (List.mem_cons_self p ps)
    have ih := updateParagraphs_self ps (fun x hx => h x (List.mem_cons_of_mem p hx))
    simp [updateParagraphs, updateParagraph, hp, ih]

/-- C9 counterexample: projection followed by reconciliation with no edits
is not the identity on every model — reconciliation trims, so a stored text
with surrounding whitespace is changed. -/
theorem roundtrip_not_identity :
    reconcileStructure roundtripDoc (projectStructure roundtripDoc) ≠
      roundtripDoc := by decide

/-- C9 amended: projection followed by reconciliation with no intervening
edits is the identity on every trim-stable model (every stored text equal
to its own trim); highlight-marker addition and stripping changes no text.
On other models the only change is that texts are replaced by their trims. -/
theorem roundtrip_identity (d : DocStructure) (h : trimStable d) :
    reconcileStructure d (projectStructure d) = d := by
  obtain ⟨hp, ht⟩ := h
  show DocStructure.mk
      (updateParagraphs d.paragraphs (d.paragraphs.map (fun p => p.text)))
      (reconcileTables d.tables (d.tables.map projectTable)) = d
  rw [updateParagraphs_self d.paragraphs hp, reconcileTables_self d.tables ht]

theorem roundtrip_identity_witness :
    reconcileStructure wDoc (projectStructure wDoc) = wDoc :=
  roundtrip_identity wDoc ⟨by decide, by decide⟩

/-- C4 counterexample: with no saved `cellId` and no `data-editing` marker,
the code resolves the saved cell position (strategy order: positional before
text fingerprints) and lands on the position's cell, while the claimed order
— exact `editedText` match before positional fallback — would land on the
cell whose text equals the edited fingerprint. -/
theorem locate_order_counterexample :
    findTarget locAnchor locView = some locNodeA ∧
    claimedLocate locAnchor locView = some locNodeB ∧
    locNodeA ≠ locNodeB := by
  refine ⟨by decide, by decide, by decide⟩

/-- C4 amended: `restoreCursorPosition` attempts its strategies in this
order, first success wins: (1) exact identity by `data-cell-id`, (2) the
node marked `data-editing`, (3) positional lookup by saved table/row/cell
index, (4) edited-text fingerprint match (exact or prefix/suffix or
first-50-chars), (5) pre-edit fingerprint prefix/suffix match, (6)
paragraph-index fallback; being a pure function it is deterministic for a
given anchor and view. -/
theorem locate_order (a : RenderAnchor) (v : List VNode) :
    findTarget a v = locateCascade a v := by
  have hf : findTarget a v =
      (match stageCellId a v with
       | some n => some n
       | none =>
         match stageEditing v with
         | some n => some n
         | none =>
           match stagePosition a v with
           | some n => some n
           | none =>
             match stageEditedText a v with
             | some n => some n
             | none =>
               match stageTextContent a v with
               | some n => some n
               | none => stageParagraphIndex a v) := rfl
  rw [hf]
  unfold locateCascade
  simp only [List.foldl]
  rcases stageCellId a v with _ | n1 <;>
    rcases stageEditing v with _ | n2 <;>
      rcases stagePosition a v with _ | n3 <;>
        rcases stageEditedText a v with _ | n4 <;>
          rcases stageTextContent a v with _ | n5 <;>
            rfl

/-- The update branch does not change a row's `document_id`. -/
theorem applyApprovalUpdate_docId (args : ReviewArgs) (r : ApprovedDocument) :
    (applyApprovalUpdate args r).document_id = r.document_id := rfl

/-- Updating the first matching row keeps exactly one matching row, now with
its version incremented. -/
theorem updateFirstApproved_filter (docId : Nat) (args : ReviewArgs) :
    ∀ (db : List ApprovedDocument) (r : ApprovedDocument),
      db.filter (fun x => x.document_id == docId) = [r] →
      (updateFirstApproved docId args db).filter
          (fun x => x.document_id == docId) = [applyApprovalUpdate args r]
  | [], r, h => by simp at h
  | x :: xs, r, h => by
    by_cases hx : (x.document_id == docId) = true
    · simp only [List.filter_cons, hx, if_true] at h
      obtain ⟨hxr, hxs⟩ := List.cons_eq_cons.mp h
      rw [updateFirstApproved, if_pos hx]
      have hx2 : ((applyApprovalUpdate args x).document_id == docId) = true := by
        rw [applyApprovalUpdate_docId]; exact hx
      simp only [List.filter_cons, hx2, if_true]
      rw [hxs, hxr]
    · simp only [List.filter_cons, hx, if_false] at h
      rw [updateFirstApproved, if_neg hx]
      simp only [List.filter_cons, hx, if_false]
      exact updateFirstApproved_filter docId args xs r h

/-- Upserting over a table holding exactly one row for the document keeps
exactly one row, with the version incremented. -/
theorem upsertApproved_filter_one (docId : Nat) (args : ReviewArgs)
    (db : List ApprovedDocument) (r : ApprovedDocument)
    (h : db.filter (fun x => x.document_id == docId) = [r]) :
    (upsertApproved docId args db).filter (fun x => x.document_id == docId) =
      [applyApprovalUpdate args r] := by
  have hr : r ∈ db.filter (fun x => x.document_id == docId) := by
    rw [h]; exact List.mem_singleton.mpr rfl
  have hmem := List.mem_filter.mp hr
  have hfind : (db.find? (fun x => x.document_id == docId)).isSome = true := by
    rw [List.find?_isSome]
    exact ⟨r, hmem.1, hmem.2⟩
  rw [upsertApproved, if_pos hfind]
  exact updateFirstApproved_filter docId args db r h

/-- Upserting over a table with no row for the document creates exactly one
row, with version 1. -/
theorem upsertApproved_filter_zero (docId : Nat) (args : ReviewArgs)
    (db : List ApprovedDocument)
    (h : db.filter (fun x => x.document_id == docId) = []) :
    (upsertApproved docId args db).filter (fun x => x.document_id == docId) =
      [newApprovedDocument docId args] := by
  have hfind : db.find? (fun x => x.document_id == docId) = none := by
    rw [List.find?_eq_none]
    intro x hx
    have hall := List.filter_eq_nil_iff.mp h
    exact fun hpx => hall x hx hpx
  rw [upsertApproved, hfind]
  simp [List.filter_append, h, newApprovedDocument]

/-- A sequence of approvals starting from a table with exactly one matching
row ends with exactly one matching row whose version has grown by the
number of approvals. -/
theorem approveAll_version (docId : Nat) :
    ∀ (argsL : List ReviewArgs) (db : List ApprovedDocument)
      (r : ApprovedDocument),
      db.filter (fun x => x.document_id == docId) = [r] →
      ∃ r2, (approveAll docId argsL db).filter
            (fun x => x.document_id == docId) = [r2] ∧
          r2.version = r.version + argsL.length ∧
          r2.document_id = r.document_id
  | [], db, r, h => ⟨r, by simpa [approveAll] using h, by simp, rfl⟩
  | a :: rest, db, r, h => by
    have h1 := upsertApproved_filter_one docId a db r h
    obtain ⟨r2, hf, hv, hd⟩ :=
      approveAll_version docId rest (upsertApproved docId a db)
        (applyApprovalUpdate a r) h1
    refine ⟨r2, ?_, ?_, ?_⟩
    · simpa [approveAll, List.foldl_cons] using hf
    · rw [hv]; simp [applyApprovalUpdate]; omega
    · rw [hd]; rfl

/-- C1: starting from a table with no row for document `docId`, after `N`
approvals (`N ≥ 1`) exactly one `ApprovedDocument` row exists for that
document and its version equals `N` — the first approval creates it with
version 1 and every later approval updates it in place. -/
theorem approval_upsert_version (docId : Nat) (argsL : List ReviewArgs)
    (db : List ApprovedDocument)
    (h0 : db.filter (fun x => x.document_id == docId) = [])
    (hne : argsL ≠ []) :
    ∃ r, (approveAll docId argsL db).filter
          (fun x => x.document_id == docId) = [r] ∧
        r.version = argsL.length ∧ r.document_id = docId := by
  rcases argsL with _ | ⟨a, rest⟩
  · exact absurd rfl hne
  · have h1 := upsertApproved_filter_zero docId a db h0
    obtain ⟨r2, hf, hv, hd⟩ :=
      approveAll_version docId rest (upsertApproved docId a db)
        (newApprovedDocument docId a) h1
    refine ⟨r2, by simpa [approveAll, List.foldl_cons] using hf, ?_, ?_⟩
    · rw [hv]; simp [newApprovedDocument]; omega
    · rw [hd]; rfl

theorem approval_upsert_version_witness :
    ∃ r, (approveAll 3 [wArgs1, wArgs2] []).filter
          (fun x => x.document_id == 3) = [r] ∧
        r.version = [wArgs1, wArgs2].length ∧ r.document_id = 3 :=
  approval_upsert_version 3 [wArgs1, wArgs2] [] rfl (by simp)

/-- C2 counterexample: an approval failing while writing the new JSON
artifact leaves the database untouched (rolled back) but the file system
changed — the old artifacts were already deleted and the new XML already
written — so the approval is not atomic across files and database and the
document does not remain in its pre-approval state. -/
theorem approval_not_file_atomic :
    (reviewApprovalAttempt 3 cexReviewArgs FailPoint.failWriteJson
        cexBackendState).2 = false ∧
    (reviewApprovalAttempt 3 cexReviewArgs FailPoint.failWriteJson
        cexBackendState).1.files ≠ cexBackendState.files ∧
    (reviewApprovalAttempt 3 cexReviewArgs FailPoint.failWriteJson
        cexBackendState).1.approved = cexBackendState.approved := by
  refine ⟨by decide, by decide, by decide⟩

/-- C2 amended: only the database side of the approval is atomic — on any
failing approval the `ApprovedDocument` table equals its pre-approval
content (so a document is never left with zero or two rows) — while
file-system effects already performed (old-artifact deletion, partial new
writes) are not rolled back. -/
theorem approval_db_rollback (docId : Nat) (args : ReviewArgs)
    (fp : FailPoint) (st : BackendState)
    (h : (reviewApprovalAttempt docId args fp st).2 = false) :
    (reviewApprovalAttempt docId args fp st).1.approved = st.approved := by
  rcases fp <;> simp_all [reviewApprovalAttempt]

theorem approval_db_rollback_witness :
    (reviewApprovalAttempt 3 cexReviewArgs FailPoint.failCommit
        cexBackendState).1.approved = cexBackendState.approved :=
  approval_db_rollback 3 cexReviewArgs FailPoint.failCommit cexBackendState
    (by decide)

/-- C5: in every reachable lifecycle state, `is_locked` and `status` are
consistent — an approved document is locked, and a document in draft (for
example after a rejected review decision) is unlocked. -/
theorem lifecycle_consistent (s : LifeState) (h : Reachable s) :
    (s.status = Status.approved → s.is_locked = true) ∧
    (s.status = Status.draft → s.is_locked = false) := by
  induction h <;> simp [reviewApproveDoc, reviewRejectDoc]

theorem lifecycle_consistent_witness :
    ((⟨Status.approved, true⟩ : LifeState).status = Status.approved →
      (⟨Status.approved, true⟩ : LifeState).is_locked = true) ∧
    ((⟨Status.approved, true⟩ : LifeState).status = Status.draft →
      (⟨Status.approved, true⟩ : LifeState).is_locked = false) :=
  lifecycle_consistent ⟨Status.approved, true⟩
    (Reachable.approve (Reachable.submit Reachable.uploaded (Or.inr rfl))
      (Or.inl rfl))

end DocuFix
